import Mathlib

/-!
Verification of the namespace-to-file-path resolution engine of the
vscode-symfony-ux-twig-component extension.

Shallow embedding of src/utils/componentFinder.ts (functions
parseComponentNamespace and findComponentFiles) and the tag regex from
src/utils/constants.ts.  JavaScript strings are modelled as lists of
characters; the filesystem is a boolean existence predicate on paths;
the configuration record is passed explicitly.
-/

namespace TwigComponent

/-- JavaScript strings are modelled as lists of characters. -/
abbrev Str := List Char

/-- Lower-case a string character-wise, modelling String.prototype.toLowerCase
for the ASCII inputs this extension deals with. -/
def lowerStr (s : Str) : Str := s.map Char.toLower

/-- Split a string on a separator character, JavaScript
String.prototype.split semantics: the empty string splits to one empty
segment, and the result is never empty. -/
def splitOnChar (sep : Char) : Str → List Str
  | [] => [[]]
  | c :: rest =>
    if c = sep then [] :: splitOnChar sep rest
    else
      match splitOnChar sep rest with
      | s :: ss => (c :: s) :: ss
      | [] => [[c]]

/-- Join a list of segments with a separator character,
Array.prototype.join semantics. -/
def joinSep (sep : Char) : List Str → Str
  | [] => []
  | [s] => s
  | s :: s2 :: rest => s ++ sep :: joinSep sep (s2 :: rest)

/-- Strip all trailing slash characters, modelling
basePath.replace(pattern of trailing slashes, empty). -/
def cleanPath (s : Str) : Str := (s.reverse.dropWhile (· == '/')).reverse

/-- The configuration record returned by getConfiguredPaths in
src/utils/config.ts, restricted to the fields the resolution engine reads. -/
structure Config where
  excludedDirectoryNames : List Str
  phpBasePaths : List Str
  phpComponentPaths : List Str
  twigBasePaths : List Str
  twigTemplatePaths : List Str
  fallbackTemplateDirs : List Str

/-- One iteration of the loop at componentFinder.ts lines 24-37 building
basePathNamespace: skip empty parts and parts whose lower-cased form is an
excluded directory name, and join the kept parts with a colon. -/
def buildNamespace (excl : List Str) : List Str → Str → Str
  | [], acc => acc
  | p :: ps, acc =>
    buildNamespace excl ps
      (if p ≠ [] ∧ lowerStr p ∉ excl then
        acc ++ (if acc = [] then [] else [':']) ++ p
      else acc)

/-- The base namespace derived from a (cleaned) base path: split on the
path separator and keep the non-excluded parts (componentFinder.ts 29-37). -/
def deriveNamespace (excl : List Str) (cleanBasePath : Str) : Str :=
  buildNamespace excl (splitOnChar '/' cleanBasePath) []

/-- First matching loop of parseComponentNamespace (componentFinder.ts
lines 24-66): exact, prefix, reverse and contained matches for one base
path, in that order. -/
def firstLoopStep (fullNamespace : Str) (excl : List Str) (basePath : Str) :
    Option (Str × Str) :=
  let c := cleanPath basePath
  let ns := deriveNamespace excl c
  if ns ≠ [] ∧ ns = fullNamespace then some (c, [])
  else if ns ≠ [] ∧ (ns ++ [':']) <+: fullNamespace then
    some (c, fullNamespace.drop (ns.length + 1))
  else if ns ≠ [] ∧ (fullNamespace ++ [':']) <+: ns then some (c, [])
  else if ns ≠ [] ∧ fullNamespace <:+: ns then some (c, [])
  else none

/-- Length of the longest case-insensitive common segment-wise run from the
start, modelling the matchedParts counting loop (componentFinder.ts 74-81). -/
def commonPrefixLen : List Str → List Str → Nat
  | a :: as2, b :: bs =>
    if lowerStr a = lowerStr b then commonPrefixLen as2 bs + 1 else 0
  | _, _ => 0

/-- Second matching loop of parseComponentNamespace (componentFinder.ts
lines 69-107): ordered partial match, then unordered partial match, for
one base path. -/
def secondLoopStep (fullNamespace : Str) (excl : List Str) (basePath : Str) :
    Option (Str × Str) :=
  let c := cleanPath basePath
  let parts := (splitOnChar '/' c).filter fun p =>
    decide (p ≠ [] ∧ lowerStr p ∉ excl)
  let nsParts := splitOnChar ':' fullNamespace
  let matchedParts := commonPrefixLen parts nsParts
  if matchedParts > 0 then
    some (c, joinSep ':' (nsParts.drop matchedParts))
  else
    let partsLower := parts.map lowerStr
    let matched := nsParts.filter fun p => decide (lowerStr p ∈ partsLower)
    let unmatched := nsParts.filter fun p => decide (lowerStr p ∉ partsLower)
    if matched.length > 0 then some (c, joinSep ':' unmatched)
    else none

/-- Run a per-base-path step over the base paths in configured order,
returning the first success. -/
def scanLoop (step : Str → Option (Str × Str)) : List Str → Option (Str × Str)
  | [] => none
  | bp :: rest =>
    match step bp with
    | some r => some r
    | none => scanLoop step rest

/-- parseComponentNamespace from componentFinder.ts lines 8-112: run the
exact/prefix/reverse/contained loop over all base paths, then the
partial-match loop over all base paths, and fall back to (none, full
namespace).  The excluded directory names are the configuration value the
function reads via getConfiguredPaths. -/
def parseComponentNamespace (fullNamespace : Str) (basePaths : List Str)
    (excl : List Str) : Option Str × Str :=
  match scanLoop (firstLoopStep fullNamespace excl) basePaths with
  | some (c, rem) => (some c, rem)
  | none =>
    match scanLoop (secondLoopStep fullNamespace excl) basePaths with
    | some (c, rem) => (some c, rem)
    | none => (none, fullNamespace)

/-- Resolve single and double dot segments the way path.normalize does,
folding over the slash-separated segments (abs records whether the joined
path is absolute). -/
def resolveDots (abs : Bool) (segs : List Str) : List Str :=
  segs.foldl
    (fun acc s =>
      if s = ['.'] then acc
      else if s = ['.', '.'] then
        match acc.getLast? with
        | some t => if t = ['.', '.'] then acc ++ [s] else acc.dropLast
        | none => if abs then [] else [s]
      else acc ++ [s])
    []

/-- Node.js path.join on POSIX paths: drop empty arguments, join with a
slash, collapse repeated separators, resolve dot segments, keep a leading
slash, and return a dot for an empty result. -/
def pathJoin (parts : List Str) : Str :=
  let ps := parts.filter fun p => decide (p ≠ [])
  if ps = [] then ['.']
  else
    let raw := joinSep '/' ps
    let abs := raw.head? = some '/'
    let segs := (splitOnChar '/' raw).filter fun p => decide (p ≠ [])
    let core := joinSep '/' (resolveDots abs segs)
    if abs then '/' :: core
    else if core = [] then ['.']
    else core

/-- First index at or after i where pat occurs in rest (rest is the
original string with its first i characters dropped). -/
def scanFor (pat : Str) : Str → Nat → Option Nat
  | rest, i =>
    if pat <+: rest then some i
    else
      match rest with
      | [] => none
      | _ :: t => scanFor pat t (i + 1)

/-- JavaScript String.prototype.indexOf with a fromIndex: negative start
positions clamp to zero, absence yields minus one. -/
def strIndexOfFrom (s pat : Str) (start : Int) : Int :=
  match scanFor pat (s.drop start.toNat) start.toNat with
  | some i => (i : Int)
  | none => -1

/-- JavaScript String.prototype.replace with a plain-string pattern:
replace the first occurrence only, or return the string unchanged. -/
def replaceFirst (s pat rep : Str) : Str :=
  match scanFor pat s 0 with
  | some i => s.take i ++ rep ++ s.drop (i + pat.length)
  | none => s

/-- Convert a namespace to a path: fullNamespace.replace of every colon by
a slash. -/
def nsToPath (ns : Str) : Str := ns.map fun c => if c = ':' then '/' else c

/-- Substitute the namespace placeholder (first occurrence, as path) and
then the component-name placeholder into a configured path template
(componentFinder.ts 188-190 and the analogous sites). -/
def substTemplate (t : Str) (nsRemainder componentName : Str) : Str :=
  replaceFirst
    (replaceFirst t ("${namespace}".data) (nsToPath nsRemainder))
    ("${componentName}".data) componentName

/-- Character class of the regex groups without the colon:
uppercase or lowercase letter, digit or underscore. -/
def wordChar (c : Char) : Bool := c.isAlpha || c.isDigit || c == '_'

/-- Character class of the namespace group: word characters plus colon. -/
def nsChar (c : Char) : Bool := wordChar c || c == ':'

/-- Greedy split of the namespace-character run after the tag head: the
rightmost colon that is followed by a word character splits it into the
first capture group (before the colon) and the second capture group (the
maximal word-character run after it).  Mirrors the backtracking of
TWIG_COMPONENT_NAMESPACE_REGEX in constants.ts. -/
def splitGroups : Str → Option (Str × Str)
  | [] => none
  | c :: rest =>
    match splitGroups rest with
    | some (a, b) => some (c :: a, b)
    | none =>
      if c = ':' then
        match rest with
        | d :: _ => if wordChar d then some ([], rest.takeWhile wordChar) else none
        | [] => none
      else none

/-- Try to match the tag pattern at the start of rest: the literal tag
head, then the two capture groups (the first must be non-empty). -/
def tryTag (rest : Str) : Option (Str × Str) :=
  if ("<twig:".data) <+: rest then
    match splitGroups ((rest.drop 6).takeWhile nsChar) with
    | some (a, b) => if a ≠ [] then some (a, b) else none
    | none => none
  else none

/-- Left-to-right scan of the regex engine: the match at the earliest
possible start position wins, and its index is recorded. -/
def execScan : Str → Nat → Option (Nat × Str × Str)
  | rest, i =>
    match tryTag rest with
    | some (a, b) => some (i, a, b)
    | none =>
      match rest with
      | [] => none
      | _ :: t => execScan t (i + 1)

/-- TWIG_COMPONENT_NAMESPACE_REGEX.exec on one line of text: the match
index and the two capture groups (namespace, component name), or none. -/
def execTwigTag (line : Str) : Option (Nat × Str × Str) := execScan line 0

/-- Strip one leading src/ from the matched PHP base path
(componentFinder.ts line 264). -/
def stripSrcHead (s : Str) : Str :=
  if ("src/".data) <+: s then s.drop 4 else s

/-- Candidate path generation of findComponentFiles (componentFinder.ts
lines 180-299): per-kind expansion for a matched base path, the
all-combinations fallback when neither kind matched, the unconditional
direct components convention, and the additional heuristic template
paths.  Returns (phpPossiblePaths, twigPossiblePaths). -/
def genCandidates (cfg : Config) (fullNamespace componentName : Str) :
    List Str × List Str :=
  let phpResult :=
    parseComponentNamespace fullNamespace cfg.phpBasePaths cfg.excludedDirectoryNames
  let twigResult :=
    parseComponentNamespace fullNamespace cfg.twigBasePaths cfg.excludedDirectoryNames
  let php1 :=
    match phpResult.1 with
    | some bp => cfg.phpComponentPaths.map fun t =>
        pathJoin [bp, substTemplate t phpResult.2 componentName]
    | none => []
  let twig1 :=
    match twigResult.1 with
    | some bp => cfg.twigTemplatePaths.map fun t =>
        pathJoin [bp, substTemplate t twigResult.2 componentName]
    | none => []
  let php2 :=
    if phpResult.1 = none ∧ twigResult.1 = none then
      cfg.phpBasePaths.flatMap fun bp => cfg.phpComponentPaths.map fun t =>
        pathJoin [bp, substTemplate t fullNamespace componentName]
    else []
  let twig2 :=
    if phpResult.1 = none ∧ twigResult.1 = none then
      cfg.twigBasePaths.flatMap fun bp => cfg.twigTemplatePaths.map fun t =>
        pathJoin [bp, substTemplate t fullNamespace componentName]
    else []
  let twig3 := cfg.twigBasePaths.map fun bp =>
    pathJoin [bp, "components".data, nsToPath fullNamespace,
      componentName ++ ".html.twig".data]
  let twigSoFar := twig1 ++ twig2 ++ twig3
  let twig4 :=
    if twigSoFar.length = 0 ∨ (twigResult.1 = none ∧ phpResult.1 ≠ none) then
      (match phpResult.1 with
       | some mbp =>
         let phpBasePart := stripSrcHead mbp
         cfg.twigBasePaths.flatMap fun bp =>
           if phpBasePart <:+: bp ∨ lowerStr phpBasePart <:+: lowerStr bp then
             cfg.twigTemplatePaths.map fun t =>
               pathJoin [bp, substTemplate t phpResult.2 componentName]
           else []
       | none => []) ++
      (cfg.twigBasePaths.flatMap fun bp =>
        if nsToPath fullNamespace <:+: bp ∨
            lowerStr (nsToPath fullNamespace) <:+: lowerStr bp then
          [pathJoin [bp, componentName ++ ".html.twig".data]]
        else [])
    else []
  (php1 ++ php2, twigSoFar ++ twig4)

/-- Existence filter of componentFinder.ts lines 307-329 for one candidate
list: for each workspace root in order, resolve each candidate against the
root and keep the paths that exist on disk. -/
def primaryFound (roots : List Str) (cands : List Str) (fs : Str → Bool) :
    List Str :=
  roots.flatMap fun root => (cands.map fun p => pathJoin [root, p]).filter fs

/-- Aggressive fallback search of componentFinder.ts lines 339-384: for
each root and each configured fallback template directory that exists,
probe the simplified shape and the components-convention shape under every
twig base path. -/
def aggressiveSearchFiles (roots : List Str) (cfg : Config)
    (fullNamespace componentName : Str) (fs : Str → Bool) : List Str :=
  roots.flatMap fun root =>
    cfg.fallbackTemplateDirs.flatMap fun dir =>
      if fs (pathJoin [root, dir]) then
        cfg.twigBasePaths.flatMap fun bp =>
          let p1 := pathJoin [root, pathJoin [bp, componentName ++ ".html.twig".data]]
          let p2 := pathJoin [root, pathJoin [bp, "components".data,
            nsToPath fullNamespace, componentName ++ ".html.twig".data]]
          (if fs p1 then [p1] else []) ++ (if fs p2 then [p2] else [])
      else []

/-- Search phase of findComponentFiles (componentFinder.ts lines 180-385):
generate candidates, filter by existence, and append the aggressive
fallback results exactly when PHP files were found and no twig file was. -/
def componentSearch (roots : List Str) (cfg : Config)
    (fullNamespace componentName : Str) (fs : Str → Bool) :
    List Str × List Str :=
  let cands := genCandidates cfg fullNamespace componentName
  let php := primaryFound roots cands.1 fs
  let twig := primaryFound roots cands.2 fs
  (php,
    twig ++
      (if php.length > 0 ∧ twig.length = 0 then
        aggressiveSearchFiles roots cfg fullNamespace componentName fs
      else []))

/-- Cursor gate of findComponentFiles (componentFinder.ts lines 133-149):
locate the namespace span and the component-name span of the match via
indexOf and test whether the cursor column lies on either. -/
def spanGate (line : Str) (idx : Nat) (g1 g2 : Str) (cur : Nat) : Bool :=
  let nsStart : Int := strIndexOfFrom line g1 ((idx : Int) + 6)
  let nsEnd : Int := nsStart + g1.length
  let compStart : Int := strIndexOfFrom line g2 (nsEnd + 1)
  let compEnd : Int := compStart + g2.length
  (decide (nsStart ≤ (cur : Int)) && decide ((cur : Int) ≤ nsEnd)) ||
    (decide (compStart ≤ (cur : Int)) && decide ((cur : Int) ≤ compEnd))

/-- The record findComponentFiles resolves to. -/
structure FoundComponentFiles where
  fullNamespace : Str
  componentName : Str
  phpFiles : List Str
  twigFiles : List Str
deriving DecidableEq

/-- findComponentFiles (componentFinder.ts lines 115-401) for the line the
cursor is on: regex match, cursor-span gate, workspace-folder check
(undefined when no workspace is open), candidate search with existence
filtering and aggressive fallback, and the final not-found check. -/
def findComponentFiles (line : Str) (cur : Nat) (cfg : Config)
    (roots : Option (List Str)) (fs : Str → Bool) :
    Option FoundComponentFiles :=
  match execTwigTag line with
  | none => none
  | some (idx, g1, g2) =>
    if spanGate line idx g1 g2 cur then
      match roots with
      | none => none
      | some rs =>
        let res := componentSearch rs cfg g1 g2 fs
        if res.1 = [] ∧ res.2 = [] then none
        else some ⟨g1, g2, res.1, res.2⟩
    else none

/-- The PHP files the resolution confirms to exist, as a function of the
facade inputs (empty when the facade bails out before the search phase). -/
def resolvedPhpFiles (line : Str) (cfg : Config) (roots : Option (List Str))
    (fs : Str → Bool) : List Str :=
  match execTwigTag line, roots with
  | some (_, g1, g2), some rs => (componentSearch rs cfg g1 g2 fs).1
  | _, _ => []

/-- The twig files the resolution confirms to exist, after the aggressive
fallback union (empty when the facade bails out before the search phase). -/
def resolvedTwigFiles (line : Str) (cfg : Config) (roots : Option (List Str))
    (fs : Str → Bool) : List Str :=
  match execTwigTag line, roots with
  | some (_, g1, g2), some rs => (componentSearch rs cfg g1 g2 fs).2
  | _, _ => []

/-! Helper lemmas about the string-splitting primitives. -/

theorem splitOnChar_ne_nil (sep : Char) (s : Str) : splitOnChar sep s ≠ [] := by
  induction s with
  | nil => simp [splitOnChar]
  | cons c rest ih =>
    simp only [splitOnChar]
    split
    · simp
    · cases h : splitOnChar sep rest with
      | nil => exact absurd h ih
      | cons a l => simp

theorem joinSep_splitOnChar (sep : Char) (s : Str) :
    joinSep sep (splitOnChar sep s) = s := by
  induction s with
  | nil => rfl
  | cons c rest ih =>
    simp only [splitOnChar]
    split
    · rename_i hc
      cases h : splitOnChar sep rest with
      | nil => exact absurd h (splitOnChar_ne_nil sep rest)
      | cons a l =>
        rw [h] at ih
        simp [joinSep, ih, hc]
    · cases h : splitOnChar sep rest with
      | nil => exact absurd h (splitOnChar_ne_nil sep rest)
      | cons a l =>
        rw [h] at ih
        cases l with
        | nil => simpa [joinSep] using ih
        | cons b l2 => simpa [joinSep] using ih

theorem splitOnChar_append (sep : Char) (a b : Str) :
    splitOnChar sep (a ++ sep :: b) = splitOnChar sep a ++ splitOnChar sep b := by
  induction a with
  | nil => simp [splitOnChar]
  | cons c rest ih =>
    simp only [List.cons_append, splitOnChar]
    split
    · simp [ih]
    · rw [show splitOnChar sep (rest.append (sep :: b)) =
          splitOnChar sep rest ++ splitOnChar sep b from ih]
      cases h : splitOnChar sep rest with
      | nil => exact absurd h (splitOnChar_ne_nil sep rest)
      | cons x l => simp

/-! Lemmas about the shape of matcher results. -/

/-- Generic soundness transfer along the base-path scan. -/
theorem scanLoop_sound {P : Str × Str → Prop} (step : Str → Option (Str × Str))
    (hstep : ∀ bp r, step bp = some r → P r) :
    ∀ bps r, scanLoop step bps = some r → P r := by
  intro bps
  induction bps with
  | nil => intro r h; simp [scanLoop] at h
  | cons bp rest ih =>
    intro r h
    simp only [scanLoop] at h
    cases hs : step bp with
    | some r2 =>
      rw [hs] at h
      injection h with h2
      exact h2 ▸ hstep bp r2 hs
    | none =>
      rw [hs] at h
      exact ih r h

/-- Scanning an appended base-path list tries the first list first. -/
theorem scanLoop_append (step : Str → Option (Str × Str)) (xs ys : List Str) :
    scanLoop step (xs ++ ys) =
      match scanLoop step xs with
      | some r => some r
      | none => scanLoop step ys := by
  induction xs with
  | nil => simp [scanLoop]
  | cons bp rest ih =>
    simp only [List.cons_append, scanLoop]
    cases step bp with
    | some r => simp
    | none => simpa using ih

/-- Characterization: the matcher returns (none, full) exactly when both
loops fail. -/
theorem parseComponentNamespace_none (full : Str) (bps excl : List Str)
    (h1 : scanLoop (firstLoopStep full excl) bps = none)
    (h2 : scanLoop (secondLoopStep full excl) bps = none) :
    parseComponentNamespace full bps excl = (none, full) := by
  unfold parseComponentNamespace; rw [h1, h2]

/-- Characterization: a success of the first loop is the matcher result. -/
theorem parseComponentNamespace_first (full : Str) (bps excl : List Str)
    (c rem : Str)
    (h1 : scanLoop (firstLoopStep full excl) bps = some (c, rem)) :
    parseComponentNamespace full bps excl = (some c, rem) := by
  unfold parseComponentNamespace; rw [h1]

/-- Characterization: when the first loop fails, a success of the second
loop is the matcher result. -/
theorem parseComponentNamespace_second (full : Str) (bps excl : List Str)
    (c rem : Str)
    (h1 : scanLoop (firstLoopStep full excl) bps = none)
    (h2 : scanLoop (secondLoopStep full excl) bps = some (c, rem)) :
    parseComponentNamespace full bps excl = (some c, rem) := by
  unfold parseComponentNamespace; rw [h1, h2]

/-- C6: if the Namespace Matcher returns no matched base path, the
returned remaining namespace is the full original namespace string
(componentFinder.ts line 111 is the only return site with a null match). -/
theorem C6_no_match_keeps_full_namespace (fullNamespace : Str)
    (basePaths excl : List Str)
    (h : (parseComponentNamespace fullNamespace basePaths excl).1 = none) :
    (parseComponentNamespace fullNamespace basePaths excl).2 = fullNamespace := by
  cases h1 : scanLoop (firstLoopStep fullNamespace excl) basePaths with
  | some r =>
    obtain ⟨c, rem⟩ := r
    rw [parseComponentNamespace_first fullNamespace basePaths excl c rem h1] at h
    simp at h
  | none =>
    cases h2 : scanLoop (secondLoopStep fullNamespace excl) basePaths with
    | some r =>
      obtain ⟨c, rem⟩ := r
      rw [parseComponentNamespace_second fullNamespace basePaths excl c rem h1 h2] at h
      simp at h
    | none =>
      rw [parseComponentNamespace_none fullNamespace basePaths excl h1 h2]

/-- Witness for C6 at a concrete input: no base path is configured, so the
matcher returns no match and echoes the namespace. -/
theorem C6_witness :
    (parseComponentNamespace "A".data [] []).1 = none ∧
      (parseComponentNamespace "A".data [] []).2 = "A".data :=
  ⟨by decide, C6_no_match_keeps_full_namespace "A".data [] [] (by decide)⟩


/-! Lemmas for the empty-namespace behaviour of the matcher. -/

/-- On an empty full namespace the first loop matches a base path exactly
when its derived base namespace is non-empty (then via the reverse or the
contained check, both with empty remainder). -/
theorem firstLoopStep_nil (excl : List Str) (bp : Str) :
    firstLoopStep [] excl bp =
      if deriveNamespace excl (cleanPath bp) ≠ [] then
        some (cleanPath bp, []) else none := by
  simp only [firstLoopStep]
  rw [if_neg (fun h => h.1 h.2)]
  rw [if_neg (fun (h : _ ∧ _ <+: ([] : Str)) => by
    simpa using List.prefix_nil.1 h.2)]
  by_cases h3 : deriveNamespace excl (cleanPath bp) ≠ [] ∧
      (([] : Str) ++ [':']) <+: deriveNamespace excl (cleanPath bp)
  · rw [if_pos h3, if_pos h3.1]
  · rw [if_neg h3]
    by_cases hne : deriveNamespace excl (cleanPath bp) = []
    · rw [if_neg (fun h => h.1 hne), if_neg (fun h => h hne)]
    · rw [if_pos ⟨hne, ⟨[], deriveNamespace excl (cleanPath bp), by simp⟩⟩,
        if_pos hne]

/-- On an empty full namespace the second loop never matches: the single
empty namespace segment can equal no kept base-path part. -/
theorem secondLoopStep_nil (excl : List Str) (bp : Str) :
    secondLoopStep [] excl bp = none := by
  simp only [secondLoopStep]
  have hne : ∀ p ∈ (splitOnChar '/' (cleanPath bp)).filter
      (fun p => decide (p ≠ [] ∧ lowerStr p ∉ excl)), p ≠ [] := by
    intro p hp
    have := List.mem_filter.1 hp
    simp only [decide_eq_true_eq] at this
    exact this.2.1
  have hsplit : splitOnChar ':' ([] : Str) = [[]] := rfl
  rw [hsplit]
  have hcpl : commonPrefixLen
      ((splitOnChar '/' (cleanPath bp)).filter
        (fun p => decide (p ≠ [] ∧ lowerStr p ∉ excl))) [[]] = 0 := by
    cases hp : (splitOnChar '/' (cleanPath bp)).filter
        (fun p => decide (p ≠ [] ∧ lowerStr p ∉ excl)) with
    | nil => rfl
    | cons p ps =>
      have hpne : p ≠ [] := hne p (hp ▸ List.mem_cons_self p ps)
      simp only [commonPrefixLen]
      rw [if_neg]
      intro hlow
      exact hpne (by simpa [lowerStr, List.map_eq_nil_iff] using hlow)
  rw [hcpl]
  rw [if_neg (by simp)]
  have hcond : (decide (lowerStr ([] : Str) ∈
      ((splitOnChar '/' (cleanPath bp)).filter
        (fun p => decide (p ≠ [] ∧ lowerStr p ∉ excl))).map lowerStr)) = false := by
    rw [decide_eq_false_iff_not]
    intro hmem2
    obtain ⟨p, hp, hlp⟩ := List.mem_map.1 hmem2
    have h2 := List.mem_filter.1 hp
    simp only [decide_eq_true_eq] at h2
    exact h2.2.1 (by simpa [lowerStr, List.map_eq_nil_iff] using hlp)
  have hmatched : List.filter (fun p => decide (lowerStr p ∈
      ((splitOnChar '/' (cleanPath bp)).filter
        (fun p => decide (p ≠ [] ∧ lowerStr p ∉ excl))).map lowerStr))
      [([] : Str)] = [] := by
    simp [List.filter_cons, hcond]
  rw [hmatched]
  simp


/-- On an empty full namespace the first loop over all base paths picks
the first base path with a non-empty derived base namespace. -/
theorem firstScan_nil (excl : List Str) (bps : List Str) :
    scanLoop (firstLoopStep [] excl) bps =
      (bps.find? fun bp => !(deriveNamespace excl (cleanPath bp)).isEmpty).map
        (fun bp => (cleanPath bp, ([] : Str))) := by
  induction bps with
  | nil => rfl
  | cons bp rest ih =>
    by_cases hd : deriveNamespace excl (cleanPath bp) = []
    · simp [scanLoop, firstLoopStep_nil, hd, List.find?_cons, ih,
        List.isEmpty_iff]
    · simp [scanLoop, firstLoopStep_nil, hd, List.find?_cons,
        List.isEmpty_iff]

/-- On an empty full namespace the second loop never matches any base path. -/
theorem secondScan_nil (excl : List Str) (bps : List Str) :
    scanLoop (secondLoopStep [] excl) bps = none := by
  induction bps with
  | nil => rfl
  | cons bp rest ih => simp [scanLoop, secondLoopStep_nil, ih]

/-- C2 counterexample: for the empty full namespace against base path src
with excluded directory names src, the derived base namespace is empty,
and the matcher returns no match (not that base path with empty
remainder, as claimed). -/
theorem C2_counterexample :
    deriveNamespace ["src".data] (cleanPath "src".data) = [] ∧
      parseComponentNamespace [] ["src".data] ["src".data] = (none, []) := by
  decide

/-- C2 as amended: for an empty full namespace the matcher never matches a
base path whose derived base namespace is empty after exclusion
filtering; it matches the first base path whose derived base namespace is
non-empty, with empty remainder, and returns no match (with empty
remainder) when there is none. -/
theorem C2_empty_namespace_behaviour (bps excl : List Str) :
    parseComponentNamespace [] bps excl =
      match bps.find? fun bp => !(deriveNamespace excl (cleanPath bp)).isEmpty with
      | some bp => (some (cleanPath bp), [])
      | none => (none, []) := by
  cases hf : bps.find? fun bp => !(deriveNamespace excl (cleanPath bp)).isEmpty with
  | some bp =>
    exact parseComponentNamespace_first [] bps excl (cleanPath bp) []
      (by rw [firstScan_nil, hf]; rfl)
  | none =>
    exact parseComponentNamespace_none [] bps excl
      (by rw [firstScan_nil, hf]; rfl) (secondScan_nil excl bps)


/-- C4 counterexample: with base path src and excluded directory names
src, the derived base namespace B is empty; for the full namespace
B + colon + Foo the matcher returns no match at all, not a prefix match
with remainder Foo as claimed. -/
theorem C4_counterexample :
    deriveNamespace ["src".data] (cleanPath "src".data) = [] ∧
      ":Foo".data = ([] : Str) ++ ':' :: "Foo".data ∧
      parseComponentNamespace ":Foo".data ["src".data] ["src".data] =
        (none, ":Foo".data) := by
  decide

/-- C4 as amended: for a NON-EMPTY base namespace B derived from a
configured base path and a suffix R with full namespace B + colon + R,
the prefix check returns that (cleaned) base path with remainder R,
provided no earlier base path satisfies an exact, prefix, reverse or
contained match. -/
theorem C4_prefix_match (full B R : Str) (pre post : List Str) (bp : Str)
    (excl : List Str)
    (hB : deriveNamespace excl (cleanPath bp) = B) (hBne : B ≠ [])
    (hfull : full = B ++ ':' :: R)
    (hpre : scanLoop (firstLoopStep full excl) pre = none) :
    parseComponentNamespace full (pre ++ bp :: post) excl =
      (some (cleanPath bp), R) := by
  have hstep : firstLoopStep full excl bp = some (cleanPath bp, R) := by
    simp only [firstLoopStep, hB]
    rw [if_neg]
    · rw [if_pos ⟨hBne, ⟨R, by rw [hfull]; simp⟩⟩]
      have hdrop : full.drop (B.length + 1) = R := by
        rw [hfull, show B ++ ':' :: R = (B ++ [':']) ++ R by simp,
          show B.length + 1 = (B ++ [':']).length by simp, List.drop_left]
      rw [hdrop]
    · rintro ⟨-, h⟩
      rw [hfull] at h
      have := congrArg List.length h
      simp at this
  have hscan : scanLoop (firstLoopStep full excl) (pre ++ bp :: post) =
      some (cleanPath bp, R) := by
    rw [scanLoop_append, hpre]
    simp [scanLoop, hstep]
  exact parseComponentNamespace_first full (pre ++ bp :: post) excl
    (cleanPath bp) R hscan

/-- Witness for C4 at a concrete input: base path app/Content derives
base namespace app:Content; the namespace app:Content:Menu prefix-matches
with remainder Menu. -/
theorem C4_witness :
    parseComponentNamespace "app:Content:Menu".data ["app/Content".data] [] =
      (some "app/Content".data, "Menu".data) :=
  C4_prefix_match "app:Content:Menu".data "app:Content".data "Menu".data
    [] [] "app/Content".data [] (by decide) (by decide) (by decide) rfl


/-- Configuration for the C5 scenario: logic base path src, logic path
template with a literal Widget prefix, excluded directory names src, and
a template side that matches nothing for the namespace at hand. -/
def cfgC5 : Config :=
  ⟨["src".data], ["src".data],
    ["Widget/${namespace}/${componentName}.ext".data],
    ["templates".data],
    ["${namespace}/${componentName}.html.twig".data], []⟩

/-- C5 counterexample: in Scenario A the candidate list does NOT contain
src/Widget/Cards/Stat.ext.  The matcher fails on both kinds (src reduces
to an empty base namespace), so the fallback expands the template with
the unmodified full namespace, yielding a doubled Widget segment. -/
theorem C5_counterexample :
    "src/Widget/Cards/Stat.ext".data ∉
      (genCandidates cfgC5 "Widget:Cards".data "Stat".data).1 := by
  decide

/-- C5 as amended: the generated logic candidate list of Scenario A
contains src/Widget/Widget/Cards/Stat.ext - the template's literal Widget
prefix followed by the full namespace as the remainder. -/
theorem C5_scenario_a_candidate :
    "src/Widget/Widget/Cards/Stat.ext".data ∈
      (genCandidates cfgC5 "Widget:Cards".data "Stat".data).1 ∧
      (parseComponentNamespace "Widget:Cards".data cfgC5.phpBasePaths
        cfgC5.excludedDirectoryNames).1 = none := by
  decide


/-- Configuration for the C1 counterexample: the logic side matches the
namespace app:Card (base path app) while the template side matches
nothing. -/
def cfgC1 : Config :=
  ⟨[], ["app".data], ["${namespace}/${componentName}.php".data],
    ["templates".data], ["${namespace}/${componentName}.html.twig".data], []⟩

/-- C1 counterexample: the template-side matcher returns no match while
the logic-side matcher succeeds, yet the template candidate list does not
contain the expansion of the configured template base path and path
template with the unmodified full namespace - the permissive fallback
fires only when BOTH kinds fail. -/
theorem C1_counterexample :
    (parseComponentNamespace "app:Card".data cfgC1.twigBasePaths
      cfgC1.excludedDirectoryNames).1 = none ∧
    (parseComponentNamespace "app:Card".data cfgC1.phpBasePaths
      cfgC1.excludedDirectoryNames).1 = some "app".data ∧
    "templates/app/Card/Stat.html.twig".data ∉
      (genCandidates cfgC1 "app:Card".data "Stat".data).2 := by
  decide

/-- C1 as amended: the permissive full-namespace fallback fires exactly
when the matcher found no base path for BOTH file kinds; in that case
each kind's candidate list contains, for every configured base path and
path template of that kind, the expansion of the template with the
unmodified full namespace. -/
theorem C1_fallback_both_kinds (cfg : Config) (fullNamespace componentName : Str)
    (hphp : (parseComponentNamespace fullNamespace cfg.phpBasePaths
      cfg.excludedDirectoryNames).1 = none)
    (htwig : (parseComponentNamespace fullNamespace cfg.twigBasePaths
      cfg.excludedDirectoryNames).1 = none) :
    (∀ bp ∈ cfg.phpBasePaths, ∀ t ∈ cfg.phpComponentPaths,
      pathJoin [bp, substTemplate t fullNamespace componentName] ∈
        (genCandidates cfg fullNamespace componentName).1) ∧
    (∀ bp ∈ cfg.twigBasePaths, ∀ t ∈ cfg.twigTemplatePaths,
      pathJoin [bp, substTemplate t fullNamespace componentName] ∈
        (genCandidates cfg fullNamespace componentName).2) := by
  constructor
  · intro bp hbp t ht
    simp only [genCandidates, hphp, htwig, and_self, if_true]
    simp only [List.mem_append, List.mem_flatMap, List.mem_map]
    exact Or.inr ⟨bp, hbp, ⟨t, ht, rfl⟩⟩
  · intro bp hbp t ht
    simp only [genCandidates, hphp, htwig, and_self, if_true]
    simp only [List.mem_append, List.mem_flatMap, List.mem_map]
    exact Or.inl (Or.inl (Or.inr ⟨bp, hbp, ⟨t, ht, rfl⟩⟩))

/-- Witness for C1 as amended: a configuration where neither kind
matches, instantiated at its only base path and path template. -/
theorem C1_witness :
    pathJoin ["lib".data,
        substTemplate "${namespace}/${componentName}.php".data
          "Zed".data "Stat".data] ∈
      (genCandidates
        ⟨[], ["lib".data], ["${namespace}/${componentName}.php".data],
          ["views".data], ["${namespace}/${componentName}.html.twig".data], []⟩
        "Zed".data "Stat".data).1 :=
  (C1_fallback_both_kinds _ "Zed".data "Stat".data (by decide) (by decide)).1
    "lib".data (by decide) "${namespace}/${componentName}.php".data (by decide)


/-- Configuration for the C3 counterexample: the fixed components
convention and the both-kinds fallback expansion generate the same twig
candidate twice. -/
def cfgC3 : Config :=
  ⟨["templates".data], [], [], ["templates".data],
    ["components/${namespace}/${componentName}.html.twig".data], []⟩

/-- Filesystem for the C3 counterexample: exactly one twig file exists. -/
def fsC3 : Str → Bool :=
  fun p => p == "w/templates/components/Card/Stat.html.twig".data

/-- C3 counterexample: the twig result list of the search (existence
filter plus fallback union) contains the same existing resolved file
twice for the same workspace root - no deduplication happens. -/
theorem C3_counterexample :
    (componentSearch ["w".data] cfgC3 "Card".data "Stat".data fsC3).2 =
      ["w/templates/components/Card/Stat.html.twig".data,
        "w/templates/components/Card/Stat.html.twig".data] ∧
    ¬ ((componentSearch ["w".data] cfgC3 "Card".data "Stat".data fsC3).2).Nodup := by
  decide

/-- C3 as amended: the existence filter performs no deduplication of its
own; its per-kind output is duplicate-free exactly when the resolved
candidate paths (workspace root x candidate, in root-major order) are
pairwise distinct, because the output is a sublist of those resolved
paths. -/
theorem C3_existence_filter_nodup (roots cands : List Str) (fs : Str → Bool)
    (h : (roots.flatMap fun root => cands.map fun p => pathJoin [root, p]).Nodup) :
    (primaryFound roots cands fs).Nodup := by
  have hsub : (primaryFound roots cands fs).Sublist
      (roots.flatMap fun root => cands.map fun p => pathJoin [root, p]) := by
    clear h
    induction roots with
    | nil => simp [primaryFound]
    | cons r rs ih =>
      simp only [primaryFound, List.flatMap_cons] at ih ⊢
      exact List.Sublist.append (List.filter_sublist _) ih
  exact h.sublist hsub

/-- Witness for C3 as amended: two distinct candidates under one root
resolve to distinct paths, and the filtered output is duplicate-free. -/
theorem C3_witness :
    ((["a".data] : List Str).flatMap fun root =>
        (["x".data, "y".data] : List Str).map fun p => pathJoin [root, p]).Nodup ∧
      (primaryFound ["a".data] ["x".data, "y".data] (fun _ => true)).Nodup :=
  ⟨by decide,
    C3_existence_filter_nodup ["a".data] ["x".data, "y".data] (fun _ => true)
      (by decide)⟩


/-- Configuration for the C7 witness. -/
def cfgC7 : Config :=
  ⟨[], ["pkg".data], ["${componentName}.php".data], ["tpl".data],
    ["${componentName}.html.twig".data], ["tpl".data]⟩

/-- C7: the aggressive fallback contributes to the twig result exactly
when the primary existence check found at least one PHP file and no twig
file; whenever a twig file was found - or no PHP file was - the twig
result is exactly the primary twig result. -/
theorem C7_fallback_trigger (roots : List Str) (cfg : Config)
    (fullNamespace componentName : Str) (fs : Str → Bool) :
    ((primaryFound roots (genCandidates cfg fullNamespace componentName).1 fs ≠ [] ∧
      primaryFound roots (genCandidates cfg fullNamespace componentName).2 fs = []) →
      (componentSearch roots cfg fullNamespace componentName fs).2 =
        primaryFound roots (genCandidates cfg fullNamespace componentName).2 fs ++
          aggressiveSearchFiles roots cfg fullNamespace componentName fs) ∧
    (primaryFound roots (genCandidates cfg fullNamespace componentName).2 fs ≠ [] →
      (componentSearch roots cfg fullNamespace componentName fs).2 =
        primaryFound roots (genCandidates cfg fullNamespace componentName).2 fs) ∧
    (primaryFound roots (genCandidates cfg fullNamespace componentName).1 fs = [] →
      (componentSearch roots cfg fullNamespace componentName fs).2 =
        primaryFound roots (genCandidates cfg fullNamespace componentName).2 fs) := by
  refine ⟨?_, ?_, ?_⟩
  · rintro ⟨hphp, htwig⟩
    simp only [componentSearch]
    rw [if_pos ⟨List.length_pos.2 hphp, by rw [htwig]; rfl⟩]
  · intro htwig
    simp only [componentSearch]
    rw [if_neg (fun hc => htwig (List.length_eq_zero.1 hc.2)), List.append_nil]
  · intro hphp
    simp only [componentSearch]
    rw [if_neg (fun hc => (by rw [hphp] at hc; simp at hc : ¬ _ > 0) hc.1),
      List.append_nil]

/-- Witness for C7: with a filesystem on which nothing exists, no PHP
file is found and the twig result equals the (empty) primary twig result. -/
theorem C7_witness :
    (componentSearch ["w".data] cfgC7 "A".data "B".data (fun _ => false)).2 =
      primaryFound ["w".data] (genCandidates cfgC7 "A".data "B".data).2
        (fun _ => false) :=
  (C7_fallback_trigger ["w".data] cfgC7 "A".data "B".data (fun _ => false)).2.2
    (by decide)


/-- Every successful first-loop result has a remainder formed from a
sublist of the original namespace segments: empty for exact, reverse and
contained matches, a contiguous suffix for prefix matches. -/
theorem firstLoopStep_segments (full : Str) (excl : List Str) (bp c rem : Str)
    (h : firstLoopStep full excl bp = some (c, rem)) :
    ∃ l, l.Sublist (splitOnChar ':' full) ∧ rem = joinSep ':' l := by
  simp only [firstLoopStep] at h
  split_ifs at h with h1 h2 h3 h4
  · rw [Option.some.injEq, Prod.mk.injEq] at h
    exact ⟨[], List.nil_sublist _, h.2.symm⟩
  · rw [Option.some.injEq, Prod.mk.injEq] at h
    obtain ⟨t, ht⟩ := h2.2
    have hfull : full = deriveNamespace excl (cleanPath bp) ++ ':' :: t := by
      rw [← ht]; simp
    have hdrop :
        full.drop ((deriveNamespace excl (cleanPath bp)).length + 1) = t := by
      rw [hfull,
        show deriveNamespace excl (cleanPath bp) ++ ':' :: t =
          (deriveNamespace excl (cleanPath bp) ++ [':']) ++ t by simp,
        show (deriveNamespace excl (cleanPath bp)).length + 1 =
          (deriveNamespace excl (cleanPath bp) ++ [':']).length by simp,
        List.drop_left]
    refine ⟨splitOnChar ':' t, ?_, ?_⟩
    · rw [hfull, splitOnChar_append]
      exact List.sublist_append_right _ _
    · rw [← h.2, hdrop, joinSep_splitOnChar]
  · rw [Option.some.injEq, Prod.mk.injEq] at h
    exact ⟨[], List.nil_sublist _, h.2.symm⟩
  · rw [Option.some.injEq, Prod.mk.injEq] at h
    exact ⟨[], List.nil_sublist _, h.2.symm⟩

/-- Every successful second-loop result has a remainder formed from a
sublist of the original namespace segments: the suffix after the ordered
partial match, or the unmatched segments in original order. -/
theorem secondLoopStep_segments (full : Str) (excl : List Str) (bp c rem : Str)
    (h : secondLoopStep full excl bp = some (c, rem)) :
    ∃ l, l.Sublist (splitOnChar ':' full) ∧ rem = joinSep ':' l := by
  simp only [secondLoopStep] at h
  split_ifs at h with h1 h2
  · rw [Option.some.injEq, Prod.mk.injEq] at h
    exact ⟨_, List.drop_sublist _ _, h.2.symm⟩
  · rw [Option.some.injEq, Prod.mk.injEq] at h
    exact ⟨_, List.filter_sublist _, h.2.symm⟩

/-- C10: the remaining namespace returned by the Namespace Matcher is
always the colon-join of a sublist of the original namespace's
colon-separated segments in their original order; no branch introduces a
segment that was not in the input. -/
theorem C10_remainder_subsequence (full : Str) (bps excl : List Str) :
    ∃ l, l.Sublist (splitOnChar ':' full) ∧
      (parseComponentNamespace full bps excl).2 = joinSep ':' l := by
  cases h1 : scanLoop (firstLoopStep full excl) bps with
  | some r =>
    obtain ⟨c, rem⟩ := r
    rw [parseComponentNamespace_first full bps excl c rem h1]
    exact scanLoop_sound (firstLoopStep full excl)
      (fun bp r hr => firstLoopStep_segments full excl bp r.1 r.2 hr)
      bps (c, rem) h1
  | none =>
    cases h2 : scanLoop (secondLoopStep full excl) bps with
    | some r =>
      obtain ⟨c, rem⟩ := r
      rw [parseComponentNamespace_second full bps excl c rem h1 h2]
      exact scanLoop_sound (secondLoopStep full excl)
        (fun bp r hr => secondLoopStep_segments full excl bp r.1 r.2 hr)
        bps (c, rem) h2
    | none =>
      rw [parseComponentNamespace_none full bps excl h1 h2]
      exact ⟨splitOnChar ':' full, List.Sublist.refl _,
        (joinSep_splitOnChar ':' full).symm⟩


/-- Reduction of the facade when the regex does not match the line. -/
theorem findComponentFiles_exec_none (line : Str) (cur : Nat) (cfg : Config)
    (roots : Option (List Str)) (fs : Str → Bool)
    (hexec : execTwigTag line = none) :
    findComponentFiles line cur cfg roots fs = none := by
  unfold findComponentFiles
  rw [hexec]

/-- Reduction of the facade once the regex match is known. -/
theorem findComponentFiles_exec_some (line : Str) (cur : Nat) (cfg : Config)
    (roots : Option (List Str)) (fs : Str → Bool) (idx : Nat) (g1 g2 : Str)
    (hexec : execTwigTag line = some (idx, g1, g2)) :
    findComponentFiles line cur cfg roots fs =
      if spanGate line idx g1 g2 cur then
        match roots with
        | none => none
        | some rs =>
          if (componentSearch rs cfg g1 g2 fs).1 = [] ∧
              (componentSearch rs cfg g1 g2 fs).2 = [] then none
          else some ⟨g1, g2, (componentSearch rs cfg g1 g2 fs).1,
            (componentSearch rs cfg g1 g2 fs).2⟩
      else none := by
  unfold findComponentFiles
  rw [hexec]

/-- The second capture group produced by the greedy split is never empty:
it always starts with the word character that validated the colon. -/
theorem splitGroups_snd_ne_nil :
    ∀ (s a b : Str), splitGroups s = some (a, b) → b ≠ [] := by
  intro s
  induction s with
  | nil => intro a b h; exact Option.noConfusion h
  | cons c rest ih =>
    intro a b h
    simp only [splitGroups] at h
    cases hs : splitGroups rest with
    | some p =>
      obtain ⟨a2, b2⟩ := p
      rw [hs] at h
      rw [Option.some.injEq, Prod.mk.injEq] at h
      exact h.2 ▸ ih a2 b2 hs
    | none =>
      rw [hs] at h
      dsimp only at h
      split_ifs at h with hc
      · cases rest with
        | nil => exact Option.noConfusion h
        | cons d t =>
          dsimp only at h
          split_ifs at h with hw
          rw [Option.some.injEq, Prod.mk.injEq] at h
          rw [← h.2, List.takeWhile_cons_of_pos hw]
          simp

/-- A successful tag attempt yields two non-empty capture groups. -/
theorem tryTag_groups (rest a b : Str) (h : tryTag rest = some (a, b)) :
    a ≠ [] ∧ b ≠ [] := by
  simp only [tryTag] at h
  split_ifs at h with hp
  cases hs : splitGroups ((rest.drop 6).takeWhile nsChar) with
  | some p =>
    obtain ⟨a2, b2⟩ := p
    rw [hs] at h
    dsimp only at h
    split_ifs at h with ha
    rw [Option.some.injEq, Prod.mk.injEq] at h
    exact ⟨h.1 ▸ ha, h.2 ▸ splitGroups_snd_ne_nil _ a2 b2 hs⟩
  | none => rw [hs] at h; exact Option.noConfusion h

/-- The regex scan only ever returns non-empty capture groups. -/
theorem execScan_groups :
    ∀ (s : Str) (i j : Nat) (a b : Str),
      execScan s i = some (j, a, b) → a ≠ [] ∧ b ≠ [] := by
  intro s
  induction s with
  | nil =>
    intro i j a b h
    simp only [execScan] at h
    exact Option.noConfusion h
  | cons c rest ih =>
    intro i j a b h
    simp only [execScan] at h
    cases ht : tryTag (c :: rest) with
    | some p =>
      obtain ⟨a2, b2⟩ := p
      rw [ht] at h
      rw [Option.some.injEq, Prod.mk.injEq, Prod.mk.injEq] at h
      exact h.2.1 ▸ h.2.2 ▸ tryTag_groups (c :: rest) a2 b2 ht
    | none =>
      rw [ht] at h
      exact ih (i + 1) j a b h

/-- C9: every non-none result of the Resolution Facade carries a
non-empty namespace string and a non-empty component name, because the
tag regex requires at least one namespace segment before the component
name. -/
theorem C9_nonempty_namespace_and_name (line : Str) (cur : Nat) (cfg : Config)
    (roots : Option (List Str)) (fs : Str → Bool) (r : FoundComponentFiles)
    (h : findComponentFiles line cur cfg roots fs = some r) :
    r.fullNamespace ≠ [] ∧ r.componentName ≠ [] := by
  cases hexec : execTwigTag line with
  | none =>
    rw [findComponentFiles_exec_none line cur cfg roots fs hexec] at h
    exact Option.noConfusion h
  | some m =>
    obtain ⟨idx, g1, g2⟩ := m
    rw [findComponentFiles_exec_some line cur cfg roots fs idx g1 g2 hexec] at h
    have hg := execScan_groups line 0 idx g1 g2 hexec
    split_ifs at h with hgate
    cases roots with
    | none => exact Option.noConfusion h
    | some rs =>
      dsimp only at h
      split_ifs at h with hemp
      rw [Option.some.injEq] at h
      rw [← h]
      exact hg

/-- Witness for C9 at a fully concrete resolution that succeeds. -/
theorem C9_witness :
    ((⟨"A".data, "B".data, ["w/A/B.php".data], []⟩ :
        FoundComponentFiles).fullNamespace ≠ []) ∧
      ((⟨"A".data, "B".data, ["w/A/B.php".data], []⟩ :
        FoundComponentFiles).componentName ≠ []) :=
  C9_nonempty_namespace_and_name "<twig:A:B".data 6
    ⟨[], ["A".data], ["${componentName}.php".data], [], [], []⟩
    (some ["w".data]) (fun _ => true) _ (by decide)


/-- C8: the Resolution Facade returns none exactly when the regex finds
no tag on the line, or the cursor lies outside both the namespace span
and the component-name span, or both confirmed-existing file lists are
empty after filtering and fallback (the no-workspace case has both lists
empty); in every other case it returns the namespace, the component name
and the two file lists.  The model is total, so no not-found condition
can raise. -/
theorem C8_facade_none_iff (line : Str) (cur : Nat) (cfg : Config)
    (roots : Option (List Str)) (fs : Str → Bool) :
    (findComponentFiles line cur cfg roots fs = none ↔
      (execTwigTag line = none ∨
       (∃ idx g1 g2, execTwigTag line = some (idx, g1, g2) ∧
          spanGate line idx g1 g2 cur = false) ∨
       (resolvedPhpFiles line cfg roots fs = [] ∧
        resolvedTwigFiles line cfg roots fs = []))) ∧
    (∀ r, findComponentFiles line cur cfg roots fs = some r →
       ∃ idx g1 g2, execTwigTag line = some (idx, g1, g2) ∧
         r = ⟨g1, g2, resolvedPhpFiles line cfg roots fs,
           resolvedTwigFiles line cfg roots fs⟩) := by
  cases hexec : execTwigTag line with
  | none =>
    rw [findComponentFiles_exec_none line cur cfg roots fs hexec]
    exact ⟨by simp, fun r h => Option.noConfusion h⟩
  | some m =>
    obtain ⟨idx, g1, g2⟩ := m
    rw [findComponentFiles_exec_some line cur cfg roots fs idx g1 g2 hexec]
    by_cases hgate : spanGate line idx g1 g2 cur = true
    · rw [if_pos hgate]
      cases roots with
      | none =>
        have hP : resolvedPhpFiles line cfg none fs = [] := by
          simp [resolvedPhpFiles, hexec]
        have hT : resolvedTwigFiles line cfg none fs = [] := by
          simp [resolvedTwigFiles, hexec]
        exact ⟨⟨fun _ => Or.inr (Or.inr ⟨hP, hT⟩), fun _ => rfl⟩,
          fun r h => Option.noConfusion h⟩
      | some rs =>
        have hP : resolvedPhpFiles line cfg (some rs) fs =
            (componentSearch rs cfg g1 g2 fs).1 := by
          simp [resolvedPhpFiles, hexec]
        have hT : resolvedTwigFiles line cfg (some rs) fs =
            (componentSearch rs cfg g1 g2 fs).2 := by
          simp [resolvedTwigFiles, hexec]
        dsimp only
        by_cases hemp : (componentSearch rs cfg g1 g2 fs).1 = [] ∧
            (componentSearch rs cfg g1 g2 fs).2 = []
        · rw [if_pos hemp]
          exact ⟨⟨fun _ => Or.inr (Or.inr ⟨hP.trans hemp.1, hT.trans hemp.2⟩),
            fun _ => rfl⟩, fun r h => Option.noConfusion h⟩
        · rw [if_neg hemp]
          constructor
          · constructor
            · intro h; exact Option.noConfusion h
            · rintro (h1 | ⟨idx2, g12, g22, he2, hg2⟩ | ⟨h3, h4⟩)
              · exact Option.noConfusion h1
              · rw [Option.some.injEq, Prod.mk.injEq, Prod.mk.injEq] at he2
                rw [← he2.1, ← he2.2.1, ← he2.2.2] at hg2
                rw [hgate] at hg2
                exact Bool.noConfusion hg2
              · exact absurd ⟨hP.symm.trans h3, hT.symm.trans h4⟩ hemp
          · intro r h
            rw [Option.some.injEq] at h
            exact ⟨idx, g1, g2, rfl, by rw [hP, hT, ← h]⟩
    · rw [if_neg hgate]
      refine ⟨⟨fun _ => Or.inr (Or.inl ⟨idx, g1, g2, rfl, ?_⟩), fun _ => rfl⟩,
        fun r h => Option.noConfusion h⟩
      simpa using hgate

/-- Witness for C8 at a concrete successful resolution. -/
theorem C8_witness :
    ∃ idx g1 g2,
      execTwigTag "<twig:Ns:Comp".data = some (idx, g1, g2) ∧
      (⟨"Ns".data, "Comp".data, ["root/Ns/Comp.php".data], []⟩ :
          FoundComponentFiles) =
        ⟨g1, g2,
          resolvedPhpFiles "<twig:Ns:Comp".data
            ⟨[], ["Ns".data], ["${componentName}.php".data], [], [], []⟩
            (some ["root".data]) (fun _ => true),
          resolvedTwigFiles "<twig:Ns:Comp".data
            ⟨[], ["Ns".data], ["${componentName}.php".data], [], [], []⟩
            (some ["root".data]) (fun _ => true)⟩ :=
  (C8_facade_none_iff "<twig:Ns:Comp".data 7
    ⟨[], ["Ns".data], ["${componentName}.php".data], [], [], []⟩
    (some ["root".data]) (fun _ => true)).2 _ (by decide)

end TwigComponent
